import Mathlib

/-!
# Kanban Vault — verification of the vault-store specification

A shallow embedding of the Kanban Vault core: the frontmatter codec, the
entity schema and validator, the vault filesystem layout, the seeder, the
vault store (load, create, update) and the board projection.

The repository ships the React presentation layer (`src/src/App.tsx`); the
Rust/Tauri vault-store backend is not part of the source tree, so every
backend definition below is modelled from the specification (each such
definition's doc comment says so).  The wizard validation and the AI
auto-fill merge are embedded directly from `src/src/App.tsx`.
-/

namespace KV

/-- Modelled from the spec: a typed frontmatter header value — a scalar
string or a sequence of strings (the only shapes the schema uses:
`columns` and `tags` are sequences, everything else is a scalar). -/
inductive Val where
  | str : String → Val
  | seq : List String → Val
deriving DecidableEq, Repr

/-- A frontmatter header: an ordered mapping from field names to values. -/
abbrev Header : Type := List (String × Val)

/-- Look a field up in a header (first occurrence wins); unknown or extra
fields are simply never looked up, so decoding ignores them silently. -/
def lookupVal (h : Header) (k : String) : Option Val :=
  (h.find? (fun kv => kv.1 == k)).map (fun kv => kv.2)

/-- Error kinds of the spec: FormatError, ValidationError, NotFoundError. -/
inductive Err where
  | format : String → Err
  | validation : String → Err
  | notFound : Err
deriving DecidableEq, Repr

/-- Board record (spec §3/§6): id, title, non-empty ordered columns. -/
structure Board where
  id : String
  title : String
  columns : List String
deriving DecidableEq, Repr

/-- Task record (spec §3/§6). `created` is required; `due` and `updated`
are optional; `body` is the free-text remainder of the file. -/
structure Task where
  id : String
  title : String
  board : String
  column : String
  tags : List String
  due : Option String
  created : String
  updated : Option String
  body : String
deriving DecidableEq, Repr

/-- Project record (spec §3/§6). -/
structure Project where
  id : String
  title : String
  owner : Option String
  description : Option String
deriving DecidableEq, Repr

/-- Epic record (spec §3/§6). -/
structure Epic where
  id : String
  title : String
  project_id : Option String
  owner : Option String
  description : Option String
deriving DecidableEq, Repr

/-- Decode an optional scalar field: absent is `none`, a scalar is kept,
a sequence fails the type check. -/
def decodeOpt (h : Header) (k : String) : Except Err (Option String) :=
  match lookupVal h k with
  | none => .ok none
  | some (.str v) => .ok (some v)
  | some (.seq _) => .error (.validation "expected a scalar value")

/-- Encode an optional scalar field: emitted only when present. -/
def optField (k : String) : Option String → List (String × Val)
  | some v => [(k, .str v)]
  | none => []

/-- Modelled from the spec (§4.2, Entity Schema & Validator; the backend is
not in the source tree): decode a Board from a header.  Fails for a missing
required field or a field of the wrong shape; `columns` must be a non-empty
sequence; unknown fields are ignored. -/
def decodeBoard (h : Header) : Except Err Board :=
  match lookupVal h "id", lookupVal h "title", lookupVal h "columns" with
  | some (.str i), some (.str t), some (.seq cs) =>
      if cs = [] then .error (.validation "columns must be non-empty")
      else .ok ⟨i, t, cs⟩
  | _, _, _ => .error (.validation "missing or invalid required field")

/-- Modelled from the spec: encode a Board back to a header, keys in the
schema's declared field order. -/
def encodeBoard (b : Board) : Header :=
  [("id", .str b.id), ("title", .str b.title), ("columns", .seq b.columns)]

/-- Modelled from the spec: decode a Task from a header plus file body.
Required: id, title, board, column, created.  `tags` defaults to the empty
sequence; `due` and `updated` are optional scalars. -/
def decodeTask (h : Header) (body : String) : Except Err Task :=
  match lookupVal h "id", lookupVal h "title", lookupVal h "board",
        lookupVal h "column", lookupVal h "created" with
  | some (.str i), some (.str t), some (.str b), some (.str c), some (.str cr) =>
      match lookupVal h "tags" with
      | some (.str _) => .error (.validation "tags must be a sequence")
      | tagsVal =>
          let tags := match tagsVal with
            | some (.seq l) => l
            | _ => []
          match decodeOpt h "due", decodeOpt h "updated" with
          | .ok due, .ok updated => .ok ⟨i, t, b, c, tags, due, cr, updated, body⟩
          | .error e, _ => .error e
          | _, .error e => .error e
  | _, _, _, _, _ => .error (.validation "missing or invalid required field")

/-- Modelled from the spec: encode a Task back to a header (body returned
by the caller separately), keys in declared field order. -/
def encodeTask (t : Task) : Header :=
  [("id", .str t.id), ("title", .str t.title), ("board", .str t.board),
   ("column", .str t.column), ("tags", .seq t.tags)]
  ++ optField "due" t.due
  ++ [("created", .str t.created)]
  ++ optField "updated" t.updated

/-- Modelled from the spec: decode a Project from a header. -/
def decodeProject (h : Header) : Except Err Project :=
  match lookupVal h "id", lookupVal h "title" with
  | some (.str i), some (.str t) =>
      match decodeOpt h "owner", decodeOpt h "description" with
      | .ok o, .ok d => .ok ⟨i, t, o, d⟩
      | .error e, _ => .error e
      | _, .error e => .error e
  | _, _ => .error (.validation "missing or invalid required field")

/-- Modelled from the spec: encode a Project back to a header. -/
def encodeProject (p : Project) : Header :=
  [("id", .str p.id), ("title", .str p.title)]
  ++ optField "owner" p.owner
  ++ optField "description" p.description

/-- Modelled from the spec: decode an Epic from a header.  `project_id`
is optional at decode time; its referential check happens at creation. -/
def decodeEpic (h : Header) : Except Err Epic :=
  match lookupVal h "id", lookupVal h "title" with
  | some (.str i), some (.str t) =>
      match decodeOpt h "project_id", decodeOpt h "owner", decodeOpt h "description" with
      | .ok pid, .ok o, .ok d => .ok ⟨i, t, pid, o, d⟩
      | .error e, _, _ => .error e
      | _, .error e, _ => .error e
      | _, _, .error e => .error e
  | _, _ => .error (.validation "missing or invalid required field")

/-- Modelled from the spec: encode an Epic back to a header. -/
def encodeEpic (e : Epic) : Header :=
  [("id", .str e.id), ("title", .str e.title)]
  ++ optField "project_id" e.project_id
  ++ optField "owner" e.owner
  ++ optField "description" e.description

/-! ## Frontmatter codec over raw file text

An entity file is modelled as its list of text lines:
`--- <header lines> --- <body lines>`. -/

/-- A raw entity file, as its ordered list of text lines. -/
abbrev Raw : Type := List String

/-- Whitespace test used by trimming (space, tab, newline, carriage return). -/
def isWs (c : Char) : Bool :=
  c == ' ' || c == '\t' || c == '\n' || c == '\r'

/-- Trim leading and trailing whitespace from a string. -/
def strTrim (s : String) : String :=
  String.mk (((s.data.dropWhile isWs).reverse.dropWhile isWs).reverse)

/-- Split a character list at every comma. -/
def splitCommaAux : List Char → List Char → List String
  | [], acc => [String.mk acc.reverse]
  | c :: rest, acc =>
      if c = ',' then String.mk acc.reverse :: splitCommaAux rest []
      else splitCommaAux rest (c :: acc)

/-- Parse the inside of a `[...]` flow sequence into its trimmed items. -/
def parseSeqItems (inner : List Char) : List String :=
  if inner = [] then [] else (splitCommaAux inner []).map strTrim

/-- Modelled from the spec (§4.1, Frontmatter Codec; the backend is not in
the source tree): interpret a raw header value — a bracketed flow sequence
becomes a sequence value, anything else stays a scalar. -/
def parseValue (v : String) : Val :=
  match v.data with
  | '[' :: rest =>
      if rest.getLast? = some ']' then .seq (parseSeqItems rest.dropLast)
      else .str v
  | _ => .str v

/-- Render a header value back to raw text. -/
def renderValue : Val → String
  | .str s => s
  | .seq l => "[" ++ String.intercalate ", " l ++ "]"

/-- Split a header line at its first colon into key and raw value. -/
def splitColonAux : List Char → List Char → Option (String × String)
  | [], _ => none
  | c :: rest, acc =>
      if c = ':' then some (String.mk acc.reverse, String.mk rest)
      else splitColonAux rest (c :: acc)

/-- Parse one header line `key: value`; `none` when the line is not a
mapping entry. -/
def parseHeaderLine (l : String) : Option (String × Val) :=
  match splitColonAux l.data [] with
  | none => none
  | some (k, v) => some (k, parseValue (strTrim v))

/-- Modelled from the spec (§4.1): parse a raw file into header mapping and
body lines.  Fails with FormatError when the `---` delimiters are missing
or a header line cannot be decoded as a mapping entry. -/
def parse (raw : Raw) : Except Err (Header × List String) :=
  match raw with
  | "---" :: rest =>
      match (rest.takeWhile (fun l => l != "---")).mapM parseHeaderLine with
      | some hdr =>
          match rest.dropWhile (fun l => l != "---") with
          | _ :: body => .ok (hdr, body)
          | [] => .error (.format "missing closing frontmatter delimiter")
      | none => .error (.format "header cannot be decoded as a mapping")
  | _ => .error (.format "missing opening frontmatter delimiter")

/-- Modelled from the spec (§4.1): serialize a header and body back to raw
lines, keeping the header's declared key order. -/
def serialize (h : Header) (body : List String) : Raw :=
  "---" :: h.map (fun kv => kv.1 ++ ": " ++ renderValue kv.2) ++ ["---"] ++ body

/-- Join body lines into the free-text body string. -/
def joinLines (ls : List String) : String :=
  String.intercalate "\n" ls

/-- Decode a raw board file: parse, then validate. -/
def decodeBoardFile (raw : Raw) : Except Err Board :=
  match parse raw with
  | .error e => .error e
  | .ok (h, _) => decodeBoard h

/-- Decode a raw task file: parse, then validate; body is the remainder. -/
def decodeTaskFile (raw : Raw) : Except Err Task :=
  match parse raw with
  | .error e => .error e
  | .ok (h, body) => decodeTask h (joinLines body)

/-- Decode a raw project file: parse, then validate. -/
def decodeProjectFile (raw : Raw) : Except Err Project :=
  match parse raw with
  | .error e => .error e
  | .ok (h, _) => decodeProject h

/-- Decode a raw epic file: parse, then validate. -/
def decodeEpicFile (raw : Raw) : Except Err Epic :=
  match parse raw with
  | .error e => .error e
  | .ok (h, _) => decodeEpic h

/-- C6: for every entity kind and every valid record `r`,
`decode (encode r) = ok r` — encode followed by decode is the identity on
valid records (a Board is valid when its column list is non-empty; the
other kinds have no extra validity constraint). -/
theorem decode_encode_id :
    (∀ b : Board, b.columns ≠ [] → decodeBoard (encodeBoard b) = .ok b) ∧
    (∀ t : Task, decodeTask (encodeTask t) t.body = .ok t) ∧
    (∀ p : Project, decodeProject (encodeProject p) = .ok p) ∧
    (∀ e : Epic, decodeEpic (encodeEpic e) = .ok e) := by
  refine ⟨?_, ?_, ?_, ?_⟩
  · intro b hb
    cases b with
    | mk i t cs =>
      have hred : decodeBoard (encodeBoard ⟨i, t, cs⟩)
          = if cs = [] then .error (.validation "columns must be non-empty")
            else .ok ⟨i, t, cs⟩ := rfl
      rw [hred, if_neg hb]
  · intro t
    cases t with
    | mk i ti b c tg d cr u bd =>
      cases d <;> cases u <;> rfl
  · intro p
    cases p with
    | mk i t o d =>
      cases o <;> cases d <;> rfl
  · intro e
    cases e with
    | mk i t pid o d =>
      cases pid <;> cases o <;> cases d <;> rfl

/-- Witness for C6 at a concrete record of each kind. -/
theorem decode_encode_id_witness :
    decodeBoard (encodeBoard ⟨"default", "Default Board", ["Inbox", "Backlog", "Done"]⟩)
      = .ok ⟨"default", "Default Board", ["Inbox", "Backlog", "Done"]⟩ ∧
    decodeTask (encodeTask ⟨"t1", "Fix syncing", "default", "Backlog", ["urgent"],
        some "2026-03-01", "2026-02-06", none, "notes"⟩) "notes"
      = .ok ⟨"t1", "Fix syncing", "default", "Backlog", ["urgent"],
        some "2026-03-01", "2026-02-06", none, "notes"⟩ := by
  constructor
  · exact decode_encode_id.1 ⟨"default", "Default Board", ["Inbox", "Backlog", "Done"]⟩
      (by decide)
  · exact decode_encode_id.2.1 ⟨"t1", "Fix syncing", "default", "Backlog", ["urgent"],
      some "2026-03-01", "2026-02-06", none, "notes"⟩

/-! ## Vault files and the fail-soft bulk load (spec §4.5) -/

/-- The on-disk vault: for each entity kind, the list of files in that
kind's directory, as (filename, raw lines) pairs. -/
structure VaultFiles where
  boards : List (String × Raw)
  tasks : List (String × Raw)
  projects : List (String × Raw)
  epics : List (String × Raw)
deriving DecidableEq, Repr

/-- The in-memory store: the per-kind indices plus the file set, which
stays the sole durable source of truth. -/
structure Store where
  boards : List Board
  tasks : List Task
  projects : List Project
  epics : List Epic
  files : VaultFiles
deriving DecidableEq, Repr

/-- Modelled from the spec (§4.5): decode one kind's files, keeping every
successful record in order and recording a `(filename, error)` diagnostic
for every failing file — a bad file never aborts the rest. -/
def loadKind {α : Type} (dec : Raw → Except Err α) :
    List (String × Raw) → List α × List (String × Err)
  | [] => ([], [])
  | f :: rest =>
      let acc := loadKind dec rest
      match dec f.2 with
      | .ok a => (a :: acc.1, acc.2)
      | .error e => (acc.1, (f.1, e) :: acc.2)

/-- Modelled from the spec (§4.5): bulk load of the whole vault — decode
every file of every kind fail-soft and assemble the store.  The load
itself always succeeds (it is a total function); failures surface only as
per-file diagnostics. -/
def loadStore (vf : VaultFiles) : Store × List (String × Err) :=
  let b := loadKind decodeBoardFile vf.boards
  let t := loadKind decodeTaskFile vf.tasks
  let p := loadKind decodeProjectFile vf.projects
  let e := loadKind decodeEpicFile vf.epics
  (⟨b.1, t.1, p.1, e.1, vf⟩, b.2 ++ t.2 ++ p.2 ++ e.2)

theorem loadKind_append {α : Type} (dec : Raw → Except Err α)
    (l₁ l₂ : List (String × Raw)) :
    loadKind dec (l₁ ++ l₂)
      = ((loadKind dec l₁).1 ++ (loadKind dec l₂).1,
         (loadKind dec l₁).2 ++ (loadKind dec l₂).2) := by
  induction l₁ with
  | nil => simp [loadKind]
  | cons f rest ih =>
      simp only [List.cons_append, loadKind]
      cases dec f.2 <;> simp [ih]

theorem loadKind_mem_ok {α : Type} (dec : Raw → Except Err α)
    {files : List (String × Raw)} {f : String × Raw} {r : α}
    (hf : f ∈ files) (hr : dec f.2 = .ok r) :
    r ∈ (loadKind dec files).1 := by
  induction files with
  | nil => cases hf
  | cons g rest ih =>
      rcases List.mem_cons.mp hf with hg | hrest
      · subst hg
        simp only [loadKind, hr]
        exact List.mem_cons_self _ _
      · have hmem := ih hrest
        simp only [loadKind]
        cases dec g.2 <;> simp [hmem]

/-- C3: the bulk load is fail-soft per file.  First conjunct: `loadStore`
is a total function whose index is exactly the per-kind fail-soft decode
(so a vault with a bad file still loads).  Second conjunct: for any kind,
when one file in the directory fails to decode, the index holds exactly
the successful decodes of the files before and after it (only the failing
file is absent), the failure is recorded as a diagnostic, and every other
file that decodes successfully appears in the index. -/
theorem load_fail_soft :
    (∀ vf : VaultFiles,
      loadStore vf
        = (⟨(loadKind decodeBoardFile vf.boards).1,
            (loadKind decodeTaskFile vf.tasks).1,
            (loadKind decodeProjectFile vf.projects).1,
            (loadKind decodeEpicFile vf.epics).1, vf⟩,
           (loadKind decodeBoardFile vf.boards).2
             ++ (loadKind decodeTaskFile vf.tasks).2
             ++ (loadKind decodeProjectFile vf.projects).2
             ++ (loadKind decodeEpicFile vf.epics).2)) ∧
    (∀ {α : Type} (dec : Raw → Except Err α)
        (pre post : List (String × Raw)) (bad : String × Raw) (e : Err),
      dec bad.2 = .error e →
        (loadKind dec (pre ++ bad :: post)).1
            = (loadKind dec pre).1 ++ (loadKind dec post).1 ∧
        (bad.1, e) ∈ (loadKind dec (pre ++ bad :: post)).2 ∧
        (∀ (f : String × Raw) (r : α), f ∈ pre ++ post → dec f.2 = .ok r →
          r ∈ (loadKind dec (pre ++ bad :: post)).1)) := by
  constructor
  · intro vf
    rfl
  · intro α dec pre post bad e hbad
    have hsplit : loadKind dec (pre ++ bad :: post)
        = ((loadKind dec pre).1 ++ (loadKind dec (bad :: post)).1,
           (loadKind dec pre).2 ++ (loadKind dec (bad :: post)).2) :=
      loadKind_append dec pre (bad :: post)
    have hbadstep : loadKind dec (bad :: post)
        = ((loadKind dec post).1, (bad.1, e) :: (loadKind dec post).2) := by
      simp only [loadKind, hbad]
    refine ⟨?_, ?_, ?_⟩
    · rw [hsplit, hbadstep]
    · rw [hsplit, hbadstep]
      simp
    · intro f r hf hr
      rw [hsplit, hbadstep]
      rcases List.mem_append.mp hf with hp | hq
      · exact List.mem_append.mpr (.inl (loadKind_mem_ok dec hp hr))
      · exact List.mem_append.mpr (.inr (loadKind_mem_ok dec hq hr))

/-- A concrete valid task file used by witnesses. -/
def rawTaskA : Raw :=
  ["---", "id: t-a", "title: First", "board: default", "column: Backlog",
   "created: 2026-01-01", "---", "first body"]

/-- A concrete valid task file used by witnesses. -/
def rawTaskB : Raw :=
  ["---", "id: t-b", "title: Second", "board: default", "column: Inbox",
   "created: 2026-01-02", "---"]

/-- A concrete task file with the required `title` field missing. -/
def rawTaskBad : Raw :=
  ["---", "id: t-bad", "board: default", "column: Inbox",
   "created: 2026-01-03", "---", "no title here"]

/-- Witness for C3: a directory with one undecodable task file between two
valid ones loads exactly the two valid tasks. -/
theorem load_fail_soft_witness :
    (loadKind decodeTaskFile
        [("a.md", rawTaskA), ("bad.md", rawTaskBad), ("b.md", rawTaskB)]).1
      = (loadKind decodeTaskFile [("a.md", rawTaskA)]).1
          ++ (loadKind decodeTaskFile [("b.md", rawTaskB)]).1 :=
  (load_fail_soft.2 decodeTaskFile [("a.md", rawTaskA)] [("b.md", rawTaskB)]
    ("bad.md", rawTaskBad) (.validation "missing or invalid required field")
    (by rfl)).1

/-! ## Vault filesystem layout and id generation (spec §4.3, §4.5) -/

/-- Modelled from the spec (§4.3): sanitize one character to a
filesystem-safe one. -/
def slugChar (c : Char) : Char :=
  if c.isAlphanum then c.toLower else '-'

/-- Modelled from the spec (§4.3): sanitize an id / title to
filesystem-safe characters. -/
def slug (s : String) : String :=
  String.mk (s.data.map slugChar)

/-- Modelled from the spec (§4.3): the filename an entity id maps to. -/
def filenameFor (id : String) : String :=
  slug id ++ ".md"

/-- The disambiguating suffix attached to a slug on id collision. -/
def disamb (n : Nat) : String :=
  String.mk ('-' :: List.replicate n '9')

/-- Candidate ids tried in order: the bare slug first, then the slug with
ever longer disambiguating suffixes. -/
def cand (base : String) : Nat → String
  | 0 => base
  | k + 1 => base ++ disamb (k + 1)

theorem cand_length (base : String) (k : Nat) :
    (cand base k).length = base.length + (match k with | 0 => 0 | j + 1 => j + 2) := by
  cases k with
  | zero => simp [cand]
  | succ j =>
      show (base ++ disamb (j + 1)).length = base.length + (j + 2)
      rw [String.length_append]
      congr 1
      show ('-' :: List.replicate (j + 1) '9').length = j + 2
      simp

theorem cand_injective (base : String) : Function.Injective (cand base) := by
  intro i j hij
  have hlen := congrArg String.length hij
  rw [cand_length, cand_length] at hlen
  cases i <;> cases j <;> simp at hlen <;> omega

/-- Modelled from the spec (§4.5): generate a unique id from a slug base —
the bare base, or the base with a disambiguating suffix on collision.
Searching the first `existing.length + 1` candidates always finds a free
one, because they are pairwise distinct. -/
def genId (existing : List String) (base : String) : String :=
  (((List.range (existing.length + 1)).find?
      (fun k => !(existing.contains (cand base k)))).map (cand base)).getD base

theorem genId_fresh (existing : List String) (base : String) :
    genId existing base ∉ existing := by
  have hex : ∃ k ∈ List.range (existing.length + 1),
      (!(existing.contains (cand base k))) = true := by
    by_contra hall
    push_neg at hall
    have hsub : (List.range (existing.length + 1)).map (cand base) ⊆ existing := by
      intro x hx
      rcases List.mem_map.mp hx with ⟨k, hk, rfl⟩
      have hk' := hall k hk
      simp only [Bool.not_eq_true, Bool.not_eq_false] at hk'
      simpa using hk'
    have hnodup : ((List.range (existing.length + 1)).map (cand base)).Nodup :=
      (List.nodup_range _).map (cand_injective base)
    have hle := (hnodup.subperm hsub).length_le
    simp at hle
  cases hfind : (List.range (existing.length + 1)).find?
      (fun k => !(existing.contains (cand base k))) with
  | none =>
      obtain ⟨k, hk, hp⟩ := hex
      exact absurd hp (by simpa using List.find?_eq_none.mp hfind k hk)
  | some k =>
      have hp := List.find?_some hfind
      have hnotin : cand base k ∉ existing := by simpa using hp
      unfold genId
      rw [hfind]
      exact hnotin

/-! ## Store mutations (spec §4.5): create and update, fail-fast -/

/-- Payload of `create_project` (spec §4.5/§6). -/
structure ProjectPayload where
  title : String
  owner : Option String
  description : Option String
deriving DecidableEq, Repr

/-- Payload of `create_epic` (spec §4.5/§6). -/
structure EpicPayload where
  title : String
  project_id : Option String
  owner : Option String
  description : Option String
deriving DecidableEq, Repr

/-- Payload of `create_story` (spec §4.5/§6): board and column are
optional and defaulted by the store; the story text goes to the body. -/
structure StoryPayload where
  title : String
  board : Option String
  column : Option String
  tags : List String
  body : String
deriving DecidableEq, Repr

/-- Does an optional project reference resolve against the index? -/
def resolvesProject (s : Store) : Option String → Bool
  | none => true
  | some pid => s.projects.any (fun pr => pr.id == pid)

/-- Modelled from the spec (§4.5): the default column of a board —
"Backlog" when the board declares it, else the first declared column. -/
def defaultColumn (b : Board) : String :=
  if b.columns.contains "Backlog" then "Backlog" else b.columns.headD ""

/-- Modelled from the spec (§4.5): `create_project`.  All validation runs
before any write; on failure the store (indices and file set) is returned
untouched.  On success the new record is indexed and its file written. -/
def createProject (s : Store) (p : ProjectPayload) : Store × Except Err String :=
  if strTrim p.title = "" then (s, .error (.validation "title must be non-empty"))
  else
    let id := genId (s.projects.map (fun pr => pr.id)) (slug p.title)
    let record : Project := ⟨id, p.title, p.owner, p.description⟩
    ({ s with projects := s.projects ++ [record],
              files := { s.files with
                projects := s.files.projects
                  ++ [(filenameFor id, serialize (encodeProject record) [])] } },
     .ok id)

/-- Modelled from the spec (§4.5): `create_epic`.  Title must be
non-empty; a given `project_id` must resolve to an existing Project, or
the call fails with a ValidationError before any write. -/
def createEpic (s : Store) (p : EpicPayload) : Store × Except Err String :=
  if strTrim p.title = "" then (s, .error (.validation "title must be non-empty"))
  else if resolvesProject s p.project_id then
    let id := genId (s.epics.map (fun e => e.id)) (slug p.title)
    let record : Epic := ⟨id, p.title, p.project_id, p.owner, p.description⟩
    ({ s with epics := s.epics ++ [record],
              files := { s.files with
                epics := s.files.epics
                  ++ [(filenameFor id, serialize (encodeEpic record) [])] } },
     .ok id)
  else (s, .error (.validation "project_id does not resolve"))

/-- The task record a successful story create produces against board `b`:
fresh slug id, defaulted column, `created` set to the current time. -/
def storyRecord (s : Store) (p : StoryPayload) (now : String) (b : Board) : Task :=
  ⟨genId (s.tasks.map (fun t => t.id)) (slug p.title), p.title, b.id,
   p.column.getD (defaultColumn b), p.tags, none, now, none, p.body⟩

/-- The store after a successful story create: record indexed, file
written. -/
def storySuccess (s : Store) (p : StoryPayload) (now : String) (b : Board) : Store :=
  { s with tasks := s.tasks ++ [storyRecord s p now b],
           files := { s.files with
             tasks := s.files.tasks
               ++ [(filenameFor (storyRecord s p now b).id,
                    serialize (encodeTask (storyRecord s p now b)) [p.body])] } }

/-- Modelled from the spec (§4.5): `create_story`.  Board defaults to
"default" and must resolve; column defaults to the board's default
column; `created` is set to the current time; id is a fresh slug. -/
def createStory (s : Store) (p : StoryPayload) (now : String) :
    Store × Except Err String :=
  if strTrim p.title = "" then (s, .error (.validation "title must be non-empty"))
  else
    match s.boards.find? (fun b => b.id == p.board.getD "default") with
    | none => (s, .error (.validation "board does not resolve"))
    | some b => (storySuccess s p now b, .ok (storyRecord s p now b).id)

/-- Modelled from the spec (§4.5): `update_task_column`.  An unknown id
fails with NotFoundError and touches nothing.  Column handling follows
the tolerate-and-accept policy (the observed behavior displays any
column), applied uniformly: the new column is stored as given.  On
success `updated` is set and the task's single file rewritten. -/
def updateTaskColumn (s : Store) (taskId newColumn now : String) :
    Store × Except Err Unit :=
  match s.tasks.find? (fun t => t.id == taskId) with
  | none => (s, .error .notFound)
  | some t =>
      let t' : Task := { t with column := newColumn, updated := some now }
      ({ s with
          tasks := s.tasks.map (fun u => if u.id == taskId then t' else u),
          files := { s.files with
            tasks := s.files.tasks.map (fun f =>
              if f.1 = filenameFor taskId
              then (f.1, serialize (encodeTask t') [t'.body]) else f) } },
       .ok ())

/-! ## Vault seeder (spec §4.4) -/

/-- The default board seeded on first run. -/
def defaultBoard : Board :=
  ⟨"default", "Default Board", ["Inbox", "Backlog", "Ready", "In Progress", "Review", "Done"]⟩

/-- The default project seeded on first run. -/
def defaultProject : Project :=
  ⟨"default-project", "Default Project", none, none⟩

/-- The default epic seeded on first run, linked to the default project. -/
def defaultEpic : Epic :=
  ⟨"default-epic", "Default Epic", some "default-project", none, none⟩

/-- First sample task seeded on first run, on the default board/column. -/
def sampleTask1 : Task :=
  ⟨"sample-story-1", "Sample story 1", "default", "Backlog", [], none,
   "2026-01-01", none, "First sample."⟩

/-- Second sample task seeded on first run, on the default board/column. -/
def sampleTask2 : Task :=
  ⟨"sample-story-2", "Sample story 2", "default", "Backlog", [], none,
   "2026-01-01", none, "Second sample."⟩

/-- The file set a fresh vault is seeded with. -/
def seededFiles : VaultFiles :=
  ⟨[(filenameFor defaultBoard.id, serialize (encodeBoard defaultBoard) [])],
   [(filenameFor sampleTask1.id, serialize (encodeTask sampleTask1) [sampleTask1.body]),
    (filenameFor sampleTask2.id, serialize (encodeTask sampleTask2) [sampleTask2.body])],
   [(filenameFor defaultProject.id, serialize (encodeProject defaultProject) [])],
   [(filenameFor defaultEpic.id, serialize (encodeEpic defaultEpic) [])]⟩

/-- Modelled from the spec (§4.4): the seeding bootstrap.  The vault root
is `none` when absent; seeding is gated solely on that — an existing root
is returned untouched, whatever its contents. -/
def seedVault : Option VaultFiles → VaultFiles
  | none => seededFiles
  | some vf => vf

/-! ## Queries and board projection (spec §4.5, §4.6) -/

/-- Modelled from the spec (§4.5): `list_boards`. -/
def listBoards (s : Store) : List Board :=
  s.boards

/-- Modelled from the spec (§4.5): `list_tasks`, filtered when a board id
is given. -/
def listTasks (s : Store) : Option String → List Task
  | none => s.tasks
  | some bid => s.tasks.filter (fun t => t.board == bid)

/-- Lexicographic strict comparison of character lists by code point —
the byte-order comparison the backend's string keys sort by. -/
def charListLT : List Char → List Char → Bool
  | [], [] => false
  | [], _ :: _ => true
  | _ :: _, [] => false
  | a :: as, b :: bs =>
      if a.toNat < b.toNat then true
      else if b.toNat < a.toNat then false
      else charListLT as bs

theorem charListLT_irrefl : ∀ a : List Char, charListLT a a = false := by
  intro a
  induction a with
  | nil => rfl
  | cons x xs ih => simp [charListLT, ih]

theorem charListLT_trans : ∀ {a b c : List Char},
    charListLT a b = true → charListLT b c = true → charListLT a c = true := by
  intro a
  induction a with
  | nil =>
      intro b c h₁ h₂
      cases b with
      | nil => simp [charListLT] at h₁
      | cons y ys =>
          cases c with
          | nil => simp [charListLT] at h₂
          | cons z zs => simp [charListLT]
  | cons x xs ih =>
      intro b c h₁ h₂
      cases b with
      | nil => simp [charListLT] at h₁
      | cons y ys =>
          cases c with
          | nil => simp [charListLT] at h₂
          | cons z zs =>
              have h₁' : x.toNat < y.toNat
                  ∨ (x.toNat = y.toNat ∧ charListLT xs ys = true) := by
                by_cases hxy : x.toNat < y.toNat
                · exact .inl hxy
                · by_cases hyx : y.toNat < x.toNat
                  · simp [charListLT, hxy, hyx] at h₁
                  · exact .inr ⟨by omega, by simpa [charListLT, hxy, hyx] using h₁⟩
              have h₂' : y.toNat < z.toNat
                  ∨ (y.toNat = z.toNat ∧ charListLT ys zs = true) := by
                by_cases hyz : y.toNat < z.toNat
                · exact .inl hyz
                · by_cases hzy : z.toNat < y.toNat
                  · simp [charListLT, hyz, hzy] at h₂
                  · exact .inr ⟨by omega, by simpa [charListLT, hyz, hzy] using h₂⟩
              rcases h₁' with hxy | ⟨hxy, hrec₁⟩ <;> rcases h₂' with hyz | ⟨hyz, hrec₂⟩
              · simp [charListLT, show x.toNat < z.toNat by omega]
              · simp [charListLT, show x.toNat < z.toNat by omega]
              · simp [charListLT, show x.toNat < z.toNat by omega]
              · have hxz : x.toNat = z.toNat := by omega
                simp [charListLT, show ¬ x.toNat < z.toNat by omega,
                      show ¬ z.toNat < x.toNat by omega]
                exact ih hrec₁ hrec₂

theorem charListLT_conn : ∀ {a b : List Char},
    charListLT a b = false → charListLT b a = false → a = b := by
  intro a
  induction a with
  | nil =>
      intro b h₁ _
      cases b with
      | nil => rfl
      | cons y ys => simp [charListLT] at h₁
  | cons x xs ih =>
      intro b h₁ h₂
      cases b with
      | nil => simp [charListLT] at h₂
      | cons y ys =>
          by_cases hxy : x.toNat < y.toNat
          · simp [charListLT, hxy] at h₁
          · by_cases hyx : y.toNat < x.toNat
            · simp [charListLT, hyx] at h₂
            · have hchar : x = y := by
                refine Char.ext (UInt32.toNat.inj ?_)
                show x.toNat = y.toNat
                omega
              have hrec₁ : charListLT xs ys = false := by
                simpa [charListLT, hxy, hyx] using h₁
              have hrec₂ : charListLT ys xs = false := by
                simpa [charListLT, hxy, hyx] using h₂
              rw [hchar, ih hrec₁ hrec₂]

/-- Strings are equal once their character data is. -/
theorem string_data_inj {a b : String} (h : a.data = b.data) : a = b := by
  cases a
  cases b
  exact congrArg String.mk h

/-- Strict string comparison by code points. -/
def strLT (a b : String) : Bool :=
  charListLT a.data b.data

/-- Reflexive string comparison: `a` not strictly above `b`. -/
def strLE (a b : String) : Bool :=
  !(strLT b a)

theorem strLT_irrefl (a : String) : strLT a a = false :=
  charListLT_irrefl _

theorem strLT_trans {a b c : String} :
    strLT a b = true → strLT b c = true → strLT a c = true :=
  charListLT_trans

theorem strLT_conn {a b : String} :
    strLT a b = false → strLT b a = false → a = b :=
  fun h₁ h₂ => string_data_inj (charListLT_conn h₁ h₂)

/-- The stable secondary ordering key of the board projection: created
timestamp first, id as tie-break. -/
def taskLE (a b : Task) : Prop :=
  strLT a.created b.created = true
    ∨ (a.created = b.created ∧ strLE a.id b.id = true)

instance : DecidableRel taskLE := fun a b =>
  inferInstanceAs (Decidable (strLT a.created b.created = true
    ∨ (a.created = b.created ∧ strLE a.id b.id = true)))

instance : IsTotal Task taskLE := by
  constructor
  intro a b
  by_cases h₁ : strLT a.created b.created = true
  · exact .inl (.inl h₁)
  · by_cases h₂ : strLT b.created a.created = true
    · exact .inr (.inl h₂)
    · have h₁' : strLT a.created b.created = false := by simpa using h₁
      have h₂' : strLT b.created a.created = false := by simpa using h₂
      have heq : a.created = b.created := strLT_conn h₁' h₂'
      by_cases hid : strLT b.id a.id = true
      · have hab : strLT a.id b.id = false := by
          cases hab : strLT a.id b.id
          · rfl
          · have := strLT_trans hab hid
            rw [strLT_irrefl] at this
            cases this
        exact .inr (.inr ⟨heq.symm, by simp [strLE, hab]⟩)
      · exact .inl (.inr ⟨heq, by simpa [strLE] using hid⟩)

instance : IsTrans Task taskLE := by
  constructor
  intro a b c hab hbc
  rcases hab with h₁ | ⟨h₁, h₁'⟩ <;> rcases hbc with h₂ | ⟨h₂, h₂'⟩
  · exact .inl (strLT_trans h₁ h₂)
  · exact .inl (h₂ ▸ h₁)
  · exact .inl (by rw [h₁]; exact h₂)
  · refine .inr ⟨h₁.trans h₂, ?_⟩
    have hba : strLT b.id a.id = false := by simpa [strLE] using h₁'
    have hcb : strLT c.id b.id = false := by simpa [strLE] using h₂'
    have hca : strLT c.id a.id = false := by
      cases hca : strLT c.id a.id
      · rfl
      · exfalso
        by_cases hbc' : strLT b.id c.id = true
        · have := strLT_trans hbc' hca
          rw [hba] at this
          cases this
        · have hbc'' : strLT b.id c.id = false := by simpa using hbc'
          have hbceq : b.id = c.id := strLT_conn hbc'' hcb
          rw [← hbceq, hba] at hca
          cases hca
    simp [strLE, hca]

/-- One projected column: its name and its ordered tasks. -/
structure BoardColumn where
  name : String
  tasks : List Task
deriving DecidableEq, Repr

/-- The board projection result: the board plus its grouped columns. -/
structure BoardWithTasks where
  board : Board
  columns : List BoardColumn
deriving DecidableEq, Repr

/-- Modelled from the spec (§4.6): `get_board_with_tasks`.  For each
declared column, in declared order, the tasks whose board and column
match, ordered by created timestamp with id as tie-break. -/
def getBoardWithTasks (s : Store) (boardId : String) :
    Except Err BoardWithTasks :=
  match s.boards.find? (fun b => b.id == boardId) with
  | none => .error .notFound
  | some b =>
      .ok ⟨b, b.columns.map (fun c =>
        ⟨c, List.insertionSort taskLE
          (s.tasks.filter (fun t => t.board == b.id && t.column == c))⟩)⟩

/-! ## Claim theorems about the store -/

/-- The store over an empty vault, used by witnesses. -/
def emptyStore : Store :=
  ⟨[], [], [], [], ⟨[], [], [], []⟩⟩

/-- C1: every create operation is fail-fast — whenever validation fails
the returned store (indices and file set alike) is exactly the input
store, so the file set is byte-for-byte unchanged; and `create_epic` with
a `project_id` that resolves to no existing Project fails with a
ValidationError and writes no file. -/
theorem create_fail_fast :
    (∀ (s : Store) (p : ProjectPayload) (e : Err),
      (createProject s p).2 = .error e → (createProject s p).1 = s) ∧
    (∀ (s : Store) (p : EpicPayload) (e : Err),
      (createEpic s p).2 = .error e → (createEpic s p).1 = s) ∧
    (∀ (s : Store) (p : StoryPayload) (now : String) (e : Err),
      (createStory s p now).2 = .error e → (createStory s p now).1 = s) ∧
    (∀ (s : Store) (p : EpicPayload) (pid : String),
      p.project_id = some pid →
      (∀ pr ∈ s.projects, pr.id ≠ pid) →
      ∃ msg, createEpic s p = (s, .error (.validation msg))) := by
  refine ⟨?_, ?_, ?_, ?_⟩
  · intro s p e h
    by_cases ht : strTrim p.title = ""
    · simp [createProject, ht]
    · exfalso
      simp [createProject, ht] at h
  · intro s p e h
    by_cases ht : strTrim p.title = ""
    · simp [createEpic, ht]
    · by_cases hr : resolvesProject s p.project_id
      · exfalso
        simp [createEpic, ht, hr] at h
      · simp [createEpic, ht, hr]
  · intro s p now e h
    by_cases ht : strTrim p.title = ""
    · simp [createStory, ht]
    · cases hfind : s.boards.find? (fun b => b.id == p.board.getD "default") with
      | none => simp [createStory, ht, hfind]
      | some b =>
          exfalso
          simp [createStory, ht, hfind] at h
  · intro s p pid hpid hnone
    have hres : resolvesProject s p.project_id = false := by
      rw [hpid]
      show s.projects.any (fun pr => pr.id == pid) = false
      refine List.any_eq_false.mpr ?_
      intro pr hpr
      simp [hnone pr hpr]
    by_cases ht : strTrim p.title = ""
    · exact ⟨"title must be non-empty", by simp [createEpic, ht]⟩
    · exact ⟨"project_id does not resolve", by simp [createEpic, ht, hres]⟩

/-- Witness for C1: `create_epic` against the empty vault with a dangling
`project_id` fails with a ValidationError and leaves the store untouched. -/
theorem create_fail_fast_witness :
    ∃ msg, createEpic emptyStore ⟨"My Epic", some "nope", none, none⟩
      = (emptyStore, .error (.validation msg)) :=
  create_fail_fast.2.2.2 emptyStore ⟨"My Epic", some "nope", none, none⟩ "nope"
    rfl (by intro pr hpr; cases hpr)

/-- C2: `update_task_column` on a task id absent from the index fails
with NotFoundError and returns the input store unchanged — no index
change and no change to any vault file. -/
theorem update_unknown_id :
    ∀ (s : Store) (taskId newColumn now : String),
      (∀ t ∈ s.tasks, t.id ≠ taskId) →
      updateTaskColumn s taskId newColumn now = (s, .error .notFound) := by
  intro s taskId newColumn now h
  have hfind : s.tasks.find? (fun t => t.id == taskId) = none := by
    refine List.find?_eq_none.mpr ?_
    intro t ht
    simp [h t ht]
  simp [updateTaskColumn, hfind]

/-- Witness for C2 at a concrete store and unknown id. -/
theorem update_unknown_id_witness :
    updateTaskColumn emptyStore "missing" "Done" "2026-01-01"
      = (emptyStore, .error .notFound) :=
  update_unknown_id emptyStore "missing" "Done" "2026-01-01"
    (by intro t ht; cases ht)

/-- C7: seeding is gated solely on the vault root being absent.  An
existing root (whatever its contents, even with files missing) is
returned with every file unchanged; an absent root gets the default
content written; and a second invocation against an already-seeded vault
changes nothing. -/
theorem seed_gated_on_root_absent :
    (∀ vf : VaultFiles, seedVault (some vf) = vf) ∧
    seedVault none = seededFiles ∧
    (∀ root : Option VaultFiles, seedVault (some (seedVault root)) = seedVault root) :=
  ⟨fun _ => rfl, rfl, fun _ => rfl⟩

deriving instance DecidableEq for Except

/-- Example board used by the C4 concrete case and witnesses. -/
def exBoard : Board := ⟨"b", "Example", ["Inbox", "Backlog", "Done"]⟩

/-- Example task t1: Backlog, created before t3. -/
def exT1 : Task := ⟨"t1", "T1", "b", "Backlog", [], none, "2026-01-01", none, ""⟩

/-- Example task t2: Inbox. -/
def exT2 : Task := ⟨"t2", "T2", "b", "Inbox", [], none, "2026-01-03", none, ""⟩

/-- Example task t3: Backlog, created after t1. -/
def exT3 : Task := ⟨"t3", "T3", "b", "Backlog", [], none, "2026-01-02", none, ""⟩

/-- Example store holding the example board and tasks. -/
def exStore : Store := ⟨[exBoard], [exT1, exT2, exT3], [], [], ⟨[], [], [], []⟩⟩

theorem map_name_mk (f : String → List Task) (cs : List String) :
    (cs.map (fun c => (⟨c, f c⟩ : BoardColumn))).map BoardColumn.name = cs := by
  induction cs with
  | nil => rfl
  | cons c rest ih => simp [ih]

/-- C4: the board projection returns the columns in the board's declared
order; within each column exactly the tasks whose board and column match,
ordered by created timestamp with id as tie-break; the projection is a
pure function of the store, so repeated calls against unchanged data are
identical; and on the concrete example of the spec (columns
[Inbox, Backlog, Done], t1 and t3 in Backlog with t1 created first) the
Backlog column is [t1, t3]. -/
theorem board_projection :
    (∀ (s : Store) (boardId : String) (res : BoardWithTasks),
      getBoardWithTasks s boardId = .ok res →
        res.columns.map BoardColumn.name = res.board.columns ∧
        ∀ col ∈ res.columns,
          List.Sorted taskLE col.tasks ∧
          col.tasks.Perm (s.tasks.filter
            (fun t => t.board == res.board.id && t.column == col.name))) ∧
    (∀ (s : Store) (boardId : String),
      getBoardWithTasks s boardId = getBoardWithTasks s boardId) ∧
    getBoardWithTasks exStore "b"
      = .ok ⟨exBoard, [⟨"Inbox", [exT2]⟩, ⟨"Backlog", [exT1, exT3]⟩, ⟨"Done", []⟩]⟩ := by
  refine ⟨?_, fun _ _ => rfl, by decide⟩
  intro s boardId res hres
  unfold getBoardWithTasks at hres
  cases hfind : s.boards.find? (fun b => b.id == boardId) with
  | none =>
      rw [hfind] at hres
      cases hres
  | some b =>
      rw [hfind] at hres
      injection hres with hres'
      subst hres'
      constructor
      · exact map_name_mk _ _
      · intro col hcol
        obtain ⟨c, hc, rfl⟩ := List.mem_map.mp hcol
        exact ⟨List.sorted_insertionSort taskLE _, List.perm_insertionSort taskLE _⟩

/-- Witness for C4 at the concrete example store. -/
theorem board_projection_witness :
    (([⟨"Inbox", [exT2]⟩, ⟨"Backlog", [exT1, exT3]⟩, ⟨"Done", []⟩] :
        List BoardColumn).map BoardColumn.name = exBoard.columns) ∧
    ∀ col ∈ ([⟨"Inbox", [exT2]⟩, ⟨"Backlog", [exT1, exT3]⟩, ⟨"Done", []⟩] :
        List BoardColumn),
      List.Sorted taskLE col.tasks ∧
      col.tasks.Perm (exStore.tasks.filter
        (fun t => t.board == exBoard.id && t.column == col.name)) :=
  board_projection.1 exStore "b"
    ⟨exBoard, [⟨"Inbox", [exT2]⟩, ⟨"Backlog", [exT1, exT3]⟩, ⟨"Done", []⟩]⟩
    (by decide)

/-- C5: a task whose board reference resolves to no loaded board is
retained in the task index (so `list_tasks` returns it) but appears in no
column of any board projection. -/
theorem unresolved_board_excluded :
    ∀ (s : Store) (t : Task), t ∈ s.tasks →
      (∀ b ∈ s.boards, b.id ≠ t.board) →
      t ∈ listTasks s none ∧
      ∀ (boardId : String) (res : BoardWithTasks),
        getBoardWithTasks s boardId = .ok res →
        ∀ col ∈ res.columns, t ∉ col.tasks := by
  intro s t ht hb
  refine ⟨ht, ?_⟩
  intro boardId res hres col hcol htcol
  unfold getBoardWithTasks at hres
  cases hfind : s.boards.find? (fun b => b.id == boardId) with
  | none =>
      rw [hfind] at hres
      cases hres
  | some b =>
      rw [hfind] at hres
      injection hres with hres'
      subst hres'
      obtain ⟨c, hc, rfl⟩ := List.mem_map.mp hcol
      have hmem := (List.mem_insertionSort taskLE).mp htcol
      have hfilter := List.mem_filter.mp hmem
      have hboard : t.board = b.id := by
        have hand := hfilter.2
        rw [Bool.and_eq_true] at hand
        exact beq_iff_eq.mp hand.1
      exact hb b (List.mem_of_find?_eq_some hfind) hboard.symm

/-- Witness for C5: a task on a dangling board in a store with one other
board is listed but projected nowhere. -/
theorem unresolved_board_excluded_witness :
    (⟨"lost", "Lost", "ghost", "Backlog", [], none, "2026-01-01", none, ""⟩ : Task)
        ∈ listTasks
          ⟨[exBoard],
           [⟨"lost", "Lost", "ghost", "Backlog", [], none, "2026-01-01", none, ""⟩],
           [], [], ⟨[], [], [], []⟩⟩ none ∧
    ∀ (boardId : String) (res : BoardWithTasks),
      getBoardWithTasks
          ⟨[exBoard],
           [⟨"lost", "Lost", "ghost", "Backlog", [], none, "2026-01-01", none, ""⟩],
           [], [], ⟨[], [], [], []⟩⟩ boardId = .ok res →
      ∀ col ∈ res.columns,
        (⟨"lost", "Lost", "ghost", "Backlog", [], none, "2026-01-01", none, ""⟩ : Task)
          ∉ col.tasks :=
  unresolved_board_excluded
    ⟨[exBoard],
     [⟨"lost", "Lost", "ghost", "Backlog", [], none, "2026-01-01", none, ""⟩],
     [], [], ⟨[], [], [], []⟩⟩
    ⟨"lost", "Lost", "ghost", "Backlog", [], none, "2026-01-01", none, ""⟩
    (by decide) (by decide)

/-- Store holding just the seeded default board, used by the C8 witness. -/
def wStore : Store :=
  ⟨[defaultBoard], [], [], [], ⟨[], [], [], []⟩⟩

/-- Story payload with no board and no column given. -/
def wPayload : StoryPayload :=
  ⟨"My Story", none, none, [], "body text"⟩

/-- C8: `create_story` with no board specified creates the story on board
"default" (whenever the default board resolves), with the board's first
matching default column when no column is given; and two consecutive
creates with identical titles yield two distinct ids. -/
theorem create_story_defaults :
    (∀ (s : Store) (p : StoryPayload) (now : String) (b : Board),
      p.board = none →
      s.boards.find? (fun bd => bd.id == "default") = some b →
      strTrim p.title ≠ "" →
      ∃ (id : String) (s' : Store),
        createStory s p now = (s', .ok id) ∧
        ∃ t ∈ s'.tasks, t.id = id ∧ t.board = "default" ∧
          (p.column = none → t.column = defaultColumn b)) ∧
    (∀ (s s₁ s₂ : Store) (p : StoryPayload) (now₁ now₂ id₁ id₂ : String),
      createStory s p now₁ = (s₁, .ok id₁) →
      createStory s₁ p now₂ = (s₂, .ok id₂) →
      id₁ ≠ id₂) := by
  constructor
  · intro s p now b hpb hfind ht
    have hbid : b.id = "default" := by
      have := List.find?_some hfind
      exact beq_iff_eq.mp this
    have hfind' : s.boards.find? (fun bd => bd.id == p.board.getD "default") = some b := by
      rw [hpb]
      exact hfind
    refine ⟨(storyRecord s p now b).id, storySuccess s p now b, ?_, ?_⟩
    · simp [createStory, ht, hfind']
    · refine ⟨storyRecord s p now b, by simp [storySuccess], rfl, ?_, ?_⟩
      · show (storyRecord s p now b).board = "default"
        simpa [storyRecord] using hbid
      · intro hpc
        simp [storyRecord, hpc]
  · intro s s₁ s₂ p now₁ now₂ id₁ id₂ h₁ h₂
    by_cases ht : strTrim p.title = ""
    · simp [createStory, ht] at h₁
    · cases hfind : s.boards.find? (fun b => b.id == p.board.getD "default") with
      | none => simp [createStory, ht, hfind] at h₁
      | some b =>
          simp only [createStory, ht, if_false, hfind, ite_false, if_neg ht] at h₁
          obtain ⟨hs₁, hid₁⟩ := Prod.mk.injEq .. ▸ h₁
          have hid₁' : (storyRecord s p now₁ b).id = id₁ := by
            injection hid₁
          have hfind₂ : s₁.boards.find? (fun bd => bd.id == p.board.getD "default")
              = some b := by
            rw [← hs₁]
            exact hfind
          simp only [createStory, hfind₂, if_neg ht] at h₂
          obtain ⟨_, hid₂⟩ := Prod.mk.injEq .. ▸ h₂
          have hid₂' : (storyRecord s₁ p now₂ b).id = id₂ := by
            injection hid₂
          intro hcontra
          have hfresh := genId_fresh (s₁.tasks.map (fun t => t.id)) (slug p.title)
          have hid₂'' : genId (s₁.tasks.map (fun t => t.id)) (slug p.title) = id₂ := hid₂'
          rw [hid₂'', ← hcontra, ← hid₁'] at hfresh
          apply hfresh
          rw [← hs₁]
          simp [storySuccess]

/-- Witness for C8 at a store holding only the default board: the story
lands on the default board's default column, and a second identically
titled story gets the distinct id "my-story-9". -/
theorem create_story_defaults_witness :
    (∃ (id : String) (s' : Store),
      createStory wStore wPayload "2026-02-01" = (s', .ok id) ∧
      ∃ t ∈ s'.tasks, t.id = id ∧ t.board = "default" ∧
        (wPayload.column = none → t.column = defaultColumn defaultBoard)) ∧
    ("my-story" : String) ≠ "my-story-9" := by
  constructor
  · exact create_story_defaults.1 wStore wPayload "2026-02-01" defaultBoard rfl
      (by decide) (by decide)
  · exact create_story_defaults.2 wStore
      (createStory wStore wPayload "2026-02-01").1
      (createStory (createStory wStore wPayload "2026-02-01").1 wPayload "2026-02-02").1
      wPayload "2026-02-01" "2026-02-02" "my-story" "my-story-9"
      (by decide) (by decide)

/-- Counterexample to C8 as stated: a `create_story` call with no board
specified but an explicit column keeps that column — "Done" here — which
is not the default board's first matching default column ("Backlog"), so
the column-defaulting conclusion does not hold for every call with no
board specified, only for calls that leave the column unspecified too. -/
theorem create_story_explicit_column_kept :
    (createStory wStore ⟨"Other Story", none, some "Done", [], "b"⟩ "2026-03-01").2
        = .ok "other-story" ∧
    ((createStory wStore ⟨"Other Story", none, some "Done", [], "b"⟩
        "2026-03-01").1.tasks.map (fun t => t.column)) = ["Done"] ∧
    ("Done" : String) ≠ defaultColumn defaultBoard :=
  ⟨by decide, by decide, by decide⟩

/-! ## Presentation layer, embedded from `src/src/App.tsx`

The wizard validation (`validateWizard`), the submit handler's guard and
payload assembly (`handleSubmitWizard`), and the AI auto-fill merge
(`handleAutoFill`, lines 248–257) are embedded from the React source.
JavaScript string truthiness (`!s`) is `s = ""`; `s.trim()` is `strTrim`. -/

/-- The wizard's item type (`WizardType` in App.tsx). -/
inductive WizardType where
  | project
  | epic
  | story
deriving DecidableEq, Repr

/-- The wizard form state: the React state fields `handleSubmitWizard`
and `validateWizard` read. -/
structure WizardState where
  wizardType : WizardType
  title : String
  owner : String
  description : String
  projectId : String
  epicId : String
  asA : String
  iWant : String
  soThat : String
  acceptanceCriteria : List String
deriving DecidableEq, Repr

/-- Embedding of `validateWizard` from App.tsx: the error mapping it builds — title
required always; project link required for an epic; description and the
three story phrases required for a story. -/
def validateWizard (w : WizardState) : List (String × String) :=
  (if strTrim w.title = "" then [("title", "Title is required.")] else [])
  ++ (if w.wizardType = .epic ∧ w.projectId = "" then
        [("projectId", "Select a project to link this epic.")] else [])
  ++ (if w.wizardType = .story then
        (if strTrim w.description = "" then
          [("description", "Description is required.")] else [])
        ++ (if strTrim w.asA = "" then [("asA", "As a… is required.")] else [])
        ++ (if strTrim w.iWant = "" then [("iWant", "I want… is required.")] else [])
        ++ (if strTrim w.soThat = "" then [("soThat", "So that… is required.")] else [])
      else [])

/-- A create command the submit handler can invoke on the backend. -/
inductive InvokeCmd where
  | createProjectCmd (title : String) (owner description : Option String)
  | createEpicCmd (title : String) (projectId owner description : Option String)
  | createStoryCmd (title : String)
      (projectId epicId owner description asA iWant soThat : Option String)
      (acceptanceCriteria : List String) (column : String)
deriving DecidableEq, Repr

/-- JavaScript `s || null`: an empty string becomes null. -/
def orNull (s : String) : Option String :=
  if s = "" then none else some s

/-- Embedding of `handleSubmitWizard` from App.tsx: returns early invoking nothing
when validation fails, else invokes the create command for the selected
type with the payload the source assembles. -/
def handleSubmitWizard (w : WizardState) : Option InvokeCmd :=
  if validateWizard w = [] then
    some (match w.wizardType with
      | .project => .createProjectCmd w.title (orNull w.owner) (orNull w.description)
      | .epic => .createEpicCmd w.title (orNull w.projectId) (orNull w.owner)
          (orNull w.description)
      | .story => .createStoryCmd w.title (orNull w.projectId) (orNull w.epicId)
          (orNull w.owner) (orNull w.description) (orNull w.asA) (orNull w.iWant)
          (orNull w.soThat)
          (w.acceptanceCriteria.filter (fun c => strTrim c ≠ ""))
          "Backlog")
  else none

/-- C9: a submission whose title is empty or whitespace-only fails
validation, so the submit handler invokes no create command and no
entity is created. -/
theorem empty_title_blocks_create :
    ∀ w : WizardState, strTrim w.title = "" → handleSubmitWizard w = none := by
  intro w h
  have hne : validateWizard w ≠ [] := by
    simp [validateWizard, h]
  simp [handleSubmitWizard, hne]

/-- Witness for C9: a whitespace-only title on a project submission
invokes nothing. -/
theorem empty_title_blocks_create_witness :
    handleSubmitWizard
      ⟨.project, "   ", "me", "a project", "", "", "", "", "", [""]⟩ = none :=
  empty_title_blocks_create
    ⟨.project, "   ", "me", "a project", "", "", "", "", "", [""]⟩ (by decide)

/-- The auto-fill service response (`AutoFillResponse` in App.tsx). -/
structure AutoFillResponse where
  title : Option String
  asA : Option String
  iWant : Option String
  soThat : Option String
  acceptanceCriteria : Option (List String)
deriving DecidableEq, Repr

/-- The story-draft fields the auto-fill merge can touch. -/
structure StoryDraft where
  title : String
  asA : String
  iWant : String
  soThat : String
  acceptanceCriteria : List String
deriving DecidableEq, Repr

/-- JavaScript truthiness of an optional string (`result.title` etc.):
present and non-empty. -/
def truthyOpt : Option String → Bool
  | none => false
  | some s => s ≠ ""

/-- JavaScript truthiness of `result.acceptanceCriteria?.length`:
present and non-empty. -/
def truthyLen : Option (List String) → Bool
  | none => false
  | some l => l ≠ []

/-- The merge section of `handleAutoFill` (App.tsx lines 248–257): each
text field is set from the response only when currently empty and the
suggestion is truthy; the criteria list is replaced only when the
response has a non-empty list and every current criterion is blank. -/
def applyAutoFill (st : StoryDraft) (r : AutoFillResponse) : StoryDraft :=
  { title := if st.title = "" ∧ truthyOpt r.title
      then r.title.getD st.title else st.title,
    asA := if st.asA = "" ∧ truthyOpt r.asA
      then r.asA.getD st.asA else st.asA,
    iWant := if st.iWant = "" ∧ truthyOpt r.iWant
      then r.iWant.getD st.iWant else st.iWant,
    soThat := if st.soThat = "" ∧ truthyOpt r.soThat
      then r.soThat.getD st.soThat else st.soThat,
    acceptanceCriteria :=
      if truthyLen r.acceptanceCriteria
          ∧ st.acceptanceCriteria.all (fun c => strTrim c = "")
      then r.acceptanceCriteria.getD st.acceptanceCriteria
      else st.acceptanceCriteria }

/-- C10: the auto-fill merge never overwrites user-entered data — each of
title, as-a, i-want, so-that is left unchanged whenever it is non-empty
(equivalently, a field changes only if it was empty), and the
acceptance-criteria list is left unchanged whenever any current criterion
is non-blank (it is replaced only when all are blank). -/
theorem autofill_preserves_user_input :
    ∀ (st : StoryDraft) (r : AutoFillResponse),
      (st.title ≠ "" → (applyAutoFill st r).title = st.title) ∧
      (st.asA ≠ "" → (applyAutoFill st r).asA = st.asA) ∧
      (st.iWant ≠ "" → (applyAutoFill st r).iWant = st.iWant) ∧
      (st.soThat ≠ "" → (applyAutoFill st r).soThat = st.soThat) ∧
      ((∃ c ∈ st.acceptanceCriteria, strTrim c ≠ "") →
        (applyAutoFill st r).acceptanceCriteria = st.acceptanceCriteria) ∧
      ((applyAutoFill st r).title ≠ st.title → st.title = "") ∧
      ((applyAutoFill st r).acceptanceCriteria ≠ st.acceptanceCriteria →
        ∀ c ∈ st.acceptanceCriteria, strTrim c = "") := by
  intro st r
  refine ⟨?_, ?_, ?_, ?_, ?_, ?_, ?_⟩
  · intro h
    simp [applyAutoFill, h]
  · intro h
    simp [applyAutoFill, h]
  · intro h
    simp [applyAutoFill, h]
  · intro h
    simp [applyAutoFill, h]
  · intro h
    obtain ⟨c, hc, hcne⟩ := h
    have hall : ¬ st.acceptanceCriteria.all (fun c => strTrim c = "") = true := by
      intro hall
      exact hcne (by simpa using List.all_eq_true.mp hall c hc)
    simp only [applyAutoFill]
    rw [if_neg (fun hand => hall hand.2)]
  · intro h
    by_cases he : st.title = ""
    · exact he
    · exfalso
      exact h (by simp [applyAutoFill, he])
  · intro h c hc
    by_cases hall : st.acceptanceCriteria.all (fun c => strTrim c = "") = true
    · simpa using List.all_eq_true.mp hall c hc
    · exfalso
      apply h
      simp only [applyAutoFill]
      rw [if_neg (fun hand => hall hand.2)]

/-- Witness for C10: a draft with user-entered fields is unchanged by a
response suggesting replacements. -/
theorem autofill_preserves_user_input_witness :
    (applyAutoFill ⟨"My title", "a user", "", "", ["done when tested"]⟩
        ⟨some "AI title", some "AI role", some "AI goal", some "AI benefit",
         some ["AI criterion"]⟩).title = "My title" ∧
    (applyAutoFill ⟨"My title", "a user", "", "", ["done when tested"]⟩
        ⟨some "AI title", some "AI role", some "AI goal", some "AI benefit",
         some ["AI criterion"]⟩).acceptanceCriteria = ["done when tested"] := by
  constructor
  · exact (autofill_preserves_user_input
      ⟨"My title", "a user", "", "", ["done when tested"]⟩
      ⟨some "AI title", some "AI role", some "AI goal", some "AI benefit",
       some ["AI criterion"]⟩).1 (by decide)
  · exact (autofill_preserves_user_input
      ⟨"My title", "a user", "", "", ["done when tested"]⟩
      ⟨some "AI title", some "AI role", some "AI goal", some "AI benefit",
       some ["AI criterion"]⟩).2.2.2.2.1
      ⟨"done when tested", by simp, by decide⟩

end KV
